import Mathlib

/-!
Shallow embedding of the keith-acd call-center session pipeline.

The repository consists of near-duplicate Python scripts
(`script_test.py`, `test01.py` … `test04.py`) that

* parse a shard descriptor and connect with bounded retries
  (`get_database_connection`),
* extract a window of queue-log events,
* fold each call's events into one session record (the pandas merge
  pipeline building `record_of_calls`, with the `find_hold_time`
  sub-algorithm),
* persist the records idempotently (`INSERT … ON CONFLICT DO NOTHING`,
  `push_data_to_db`), and
* in `test04.py`, drive a watermark (`flag` column) through
  UNCLAIMED(0) → CLAIMED(1) → DONE(2).

Timestamps and numeric payloads are modelled as `Int`, rows as lists in
frame order; pandas `NaN`/`NaT` cells are modelled as `Option` fields.
-/

/-- Event kinds of the `queue_log` table (`q_event` column). -/
inductive QEvent
  | ENTERQUEUE
  | CONNECT
  | HOLD
  | UNHOLD
  | ABANDON
  | EXITEMPTY
  | COMPLETEAGENT
  | COMPLETECALLER
deriving DecidableEq

/-- One raw `queue_log` row.  `data1`/`data2`/`data3` are the untyped
payload columns (numeric payloads modelled as `Int`), `flag` is the
watermark column used by `test04.py` (0 = UNCLAIMED, 1 = CLAIMED,
2 = DONE); the other scripts ignore it. -/
structure RawEvent where
  callid : String
  time : Int
  event : QEvent
  queuename : String
  agent : String
  data1 : Int
  data2 : Int
  data3 : Int
  flag : Nat := 0
deriving DecidableEq

/-! ## Hold-Time Analyzer (`find_hold_time`) -/

/-- The pandas chained assignment `group['event'].iloc[-1] = 'UNHOLD'`:
replace the event of the last row by UNHOLD. -/
def setLastEventUnhold : List (Int × QEvent) → List (Int × QEvent)
  | [] => []
  | [(t, _)] => [(t, QEvent.UNHOLD)]
  | x :: xs => x :: setLastEventUnhold xs

/-- The substitution step of `find_hold_time`: when the second-to-last
event is HOLD, the last event is rewritten to UNHOLD. -/
def holdSubstitute (g : List (Int × QEvent)) : List (Int × QEvent) :=
  if (g.get? (g.length - 2)).map (·.2) = some QEvent.HOLD then setLastEventUnhold g else g

/-- `duration = pd.to_datetime(x['time']).diff()` followed by
`query('event == "UNHOLD"')['duration'].sum()`: sum, over every row
whose event is UNHOLD, of its time minus the immediately preceding
row's time (the first row's diff is NaT and contributes nothing). -/
def diffUnholdSum : List (Int × QEvent) → Int
  | [] => 0
  | [_] => 0
  | (t1, _) :: (t2, e2) :: rest =>
      (if e2 = QEvent.UNHOLD then t2 - t1 else 0) + diffUnholdSum ((t2, e2) :: rest)

/-- `find_hold_time` from `script_test.py` (identical in `test01.py`,
`test02.py`, `test03.py`, `test04.py`): input is one call's filtered
events sorted ascending by time. -/
def find_hold_time (g : List (Int × QEvent)) : Int :=
  if ¬ g.length > 2 then 0 else diffUnholdSum (holdSubstitute g)

/-- First UNHOLD timestamp in a sequence, if any. -/
def firstUnholdTime : List (Int × QEvent) → Option Int
  | [] => none
  | (t, e) :: rest => if e = QEvent.UNHOLD then some t else firstUnholdTime rest

/-- Modelled from the spec's words (§4.3 step 3): walk the sequence
matching each HOLD with the next UNHOLD that follows it and accumulate
`unhold_ts − hold_ts`; a HOLD with no following UNHOLD contributes
zero.  This is the comparison definition for the refinement claim about
`find_hold_time`; it is NOT what the source computes. -/
def specHoldPairSum : List (Int × QEvent) → Int
  | [] => 0
  | (t, e) :: rest =>
      (if e = QEvent.HOLD then (firstUnholdTime rest).getD t - t else 0) + specHoldPairSum rest

/-- Modelled from the spec's words: the full Hold-Time Analyzer contract
as the spec states it — guard at ≤ 2 events, implicit-unhold
substitution, then HOLD/next-UNHOLD pairing. -/
def specFindHoldTime (g : List (Int × QEvent)) : Int :=
  if g.length ≤ 2 then 0 else specHoldPairSum (holdSubstitute g)

/-- Adjacent-pairs reformulation of what the source actually computes:
each UNHOLD row is paired with the immediately preceding row, whatever
its kind. -/
def unholdAdjacentSum (g : List (Int × QEvent)) : Int :=
  ((g.zip (g.drop 1)).map fun pq => if pq.2.2 = QEvent.UNHOLD then pq.2.1 - pq.1.1 else 0).sum

/-! ## Session Reconstructor (pandas merge pipeline) -/

/-- One row of the merged call-record frame.  `none` models a pandas
`NaN`/`NaT` cell.  `wda` is the intermediate `waited_duration_abandon`
column. -/
structure Rec where
  callid : String
  queuename : Option String := none
  src : Option Int := none
  enterqueue : Option Int := none
  wda : Option Int := none
  abandon : Option Int := none
  exitempty : Option Int := none
  connect : Option Int := none
  agent : Option String := none
  waited_duration : Option Int := none
  complete : Option Int := none
  call_duration : Option Int := none
  agent_completed : Option Bool := none
  hold_duration : Option Int := none
deriving DecidableEq

/-- Keys in order of first occurrence (the distinct group keys of a
pandas `groupby`/`pivot_table`; their relative order is irrelevant to
the key-based merges that consume them). -/
def dedupFirst {α : Type} [DecidableEq α] (seen : List α) : List α → List α
  | [] => []
  | x :: xs => if x ∈ seen then dedupFirst seen xs else x :: dedupFirst (x :: seen) xs

/-- `call_log.query("event == 'ENTERQUEUE'")` projected and renamed:
`time → ENTERQUEUE`, `data2 → src`. -/
def enterFrame (log : List RawEvent) : List Rec :=
  (log.filter fun r => r.event == QEvent.ENTERQUEUE).map fun r =>
    { callid := r.callid, queuename := some r.queuename, src := some r.data2,
      enterqueue := some r.time }

/-- The ABANDON/EXITEMPTY pivot of `script_test.py`/`test01`/`test02`/
`test04`: index `(callid, waited_duration_abandon)`, one column per
terminal kind holding the first matching time in frame order
(`aggfunc='first'`). -/
def abandonFrame (log : List RawEvent) : List Rec :=
  let rows := log.filter fun r => r.event == QEvent.ABANDON || r.event == QEvent.EXITEMPTY
  (dedupFirst [] (rows.map fun r => (r.callid, r.data3))).map fun k =>
    { callid := k.1, wda := some k.2,
      abandon := (rows.find? fun r =>
        r.callid == k.1 && r.data3 == k.2 && r.event == QEvent.ABANDON).map (·.time),
      exitempty := (rows.find? fun r =>
        r.callid == k.1 && r.data3 == k.2 && r.event == QEvent.EXITEMPTY).map (·.time) }

/-- `call_log.query("event == 'CONNECT'")` projected: `time → CONNECT`,
`data1 → waited_duration`. -/
def connectFrame (log : List RawEvent) : List Rec :=
  (log.filter fun r => r.event == QEvent.CONNECT).map fun r =>
    { callid := r.callid, connect := some r.time, agent := some r.agent,
      waited_duration := some r.data1 }

/-- `call_log.query("event in ('COMPLETECALLER','COMPLETEAGENT')")`
projected: `time → COMPLETE`, `data2 → call_duration`,
`agent_completed := event == 'COMPLETEAGENT'`. -/
def completeFrame (log : List RawEvent) : List Rec :=
  (log.filter fun r =>
      r.event == QEvent.COMPLETEAGENT || r.event == QEvent.COMPLETECALLER).map fun r =>
    { callid := r.callid, complete := some r.time, call_duration := some r.data2,
      agent_completed := some (r.event == QEvent.COMPLETEAGENT) }

/-- The hold frame: filter to HOLD/UNHOLD/COMPLETE*, sort by
`(callid, time)`, group by callid and apply `find_hold_time` to each
group's `(time, event)` rows.  Grouping after the sort is equivalent to
collecting each callid's rows and sorting them by time. -/
def holdFrame (log : List RawEvent) : List Rec :=
  let rows := log.filter fun r =>
    r.event == QEvent.HOLD || r.event == QEvent.UNHOLD ||
    r.event == QEvent.COMPLETEAGENT || r.event == QEvent.COMPLETECALLER
  (dedupFirst [] (rows.map (·.callid))).map fun cid =>
    { callid := cid,
      hold_duration := some (find_hold_time
        (List.insertionSort (fun a b => a.1 ≤ b.1)
          ((rows.filter (·.callid == cid)).map fun r => (r.time, r.event)))) }

/-- One merge-row step of `pd.merge(..., on=["callid"], how=...)`: a left
row paired with every right row sharing its callid, or kept alone (with
the right columns NaN) when none matches. -/
def mergeRow (comb : Rec → Rec → Rec) (R : List Rec) (a : Rec) : List Rec :=
  let rs := R.filter (fun b => b.callid == a.callid)
  if rs.isEmpty then [a] else rs.map (comb a)

/-- `pd.merge(L, R, on=["callid"], how="outer")`: matched cross
products and left-only rows, then the right rows whose callid never
occurs on the left. -/
def outerMergeBy (comb : Rec → Rec → Rec) (L R : List Rec) : List Rec :=
  (L.flatMap (mergeRow comb R)) ++
    R.filter (fun b => ! L.any (fun a => a.callid == b.callid))

/-- `pd.merge(L, R, on=["callid"], how="left")`. -/
def leftMergeBy (comb : Rec → Rec → Rec) (L R : List Rec) : List Rec :=
  L.flatMap (mergeRow comb R)

/-- Column transfer for the ABANDON/EXITEMPTY pivot merge. -/
def combAbandon (a b : Rec) : Rec :=
  { a with wda := b.wda, abandon := b.abandon, exitempty := b.exitempty }

/-- Column transfer for the CONNECT merge. -/
def combConnect (a b : Rec) : Rec :=
  { a with connect := b.connect, agent := b.agent, waited_duration := b.waited_duration }

/-- Column transfer for the COMPLETE merge. -/
def combComplete (a b : Rec) : Rec :=
  { a with complete := b.complete, call_duration := b.call_duration,
           agent_completed := b.agent_completed }

/-- Column transfer for the hold-duration merge. -/
def combHold (a b : Rec) : Rec :=
  { a with hold_duration := b.hold_duration }

/-- The final `.assign(...)` step: `waited_duration` falls back to
`waited_duration_abandon`, `call_duration` and `hold_duration` fill NaN
with 0. -/
def finalizeRec (r : Rec) : Rec :=
  { r with waited_duration := r.waited_duration.orElse (fun _ => r.wda),
           call_duration := some (r.call_duration.getD 0),
           hold_duration := some (r.hold_duration.getD 0) }

/-- The success path of `record_of_calls` as built by `script_test.py`
(structurally identical in `test01.py`, `test02.py`, `test04.py`): the
four key-based merges off the ENTERQUEUE base frame, the fill-in
assigns, and the final `dropna(subset=["queuename"])`.  The scripts can
also raise inside this block and then emit nothing; those error paths
are modelled by `record_of_calls_strict` (the `script_test`/`test01`/
`test02` copies) and `record_of_calls04` (the `test04.py` copy)
below. -/
def record_of_calls (log : List RawEvent) : List Rec :=
  ((leftMergeBy combHold
      (outerMergeBy combComplete
        (outerMergeBy combConnect
          (outerMergeBy combAbandon (enterFrame log) (abandonFrame log))
          (connectFrame log))
        (completeFrame log))
      (holdFrame log)).map finalizeRec).filter (fun r => r.queuename.isSome)

/-! ## `test03.py` reconstructor variant (`process_call_log`) -/

/-- The ABANDON/EXITEMPTY pivot of `test03.py`: index `callid` only,
values `time`, `aggfunc="first"`; the `waited_duration_abandon` column
is not part of the pivot output. -/
def abandonFrame3 (log : List RawEvent) : List Rec :=
  let rows := log.filter fun r => r.event == QEvent.ABANDON || r.event == QEvent.EXITEMPTY
  (dedupFirst [] (rows.map (·.callid))).map fun cid =>
    { callid := cid,
      abandon := (rows.find? fun r =>
        r.callid == cid && r.event == QEvent.ABANDON).map (·.time),
      exitempty := (rows.find? fun r =>
        r.callid == cid && r.event == QEvent.EXITEMPTY).map (·.time) }

/-- The COMPLETE frame of `test03.py`: no `agent_completed` column is
computed. -/
def completeFrame3 (log : List RawEvent) : List Rec :=
  (log.filter fun r =>
      r.event == QEvent.COMPLETEAGENT || r.event == QEvent.COMPLETECALLER).map fun r =>
    { callid := r.callid, complete := some r.time, call_duration := some r.data2 }

/-- The hold frame of `test03.py`: filter to HOLD/UNHOLD only and group
without a prior sort, so each group keeps frame order. -/
def holdFrame3 (log : List RawEvent) : List Rec :=
  let rows := log.filter fun r => r.event == QEvent.HOLD || r.event == QEvent.UNHOLD
  (dedupFirst [] (rows.map (·.callid))).map fun cid =>
    { callid := cid,
      hold_duration := some (find_hold_time
        ((rows.filter (·.callid == cid)).map fun r => (r.time, r.event))) }

/-- Column transfer for `test03.py`'s ABANDON/EXITEMPTY merge (no
`waited_duration_abandon`). -/
def combAbandon3 (a b : Rec) : Rec :=
  { a with abandon := b.abandon, exitempty := b.exitempty }

/-- Column transfer for `test03.py`'s COMPLETE merge (no
`agent_completed`). -/
def combComplete3 (a b : Rec) : Rec :=
  { a with complete := b.complete, call_duration := b.call_duration }

/-- `test03.py`'s closing `.fillna({"waited_duration": 0,
"call_duration": 0, "hold_duration": 0})`. -/
def fillna3 (r : Rec) : Rec :=
  { r with waited_duration := some (r.waited_duration.getD 0),
           call_duration := some (r.call_duration.getD 0),
           hold_duration := some (r.hold_duration.getD 0) }

/-- `process_call_log` from `test03.py`: same merge chain but no
`dropna(subset=["queuename"])` at the end. -/
def process_call_log (log : List RawEvent) : List Rec :=
  (leftMergeBy combHold
      (outerMergeBy combComplete3
        (outerMergeBy combConnect
          (outerMergeBy combAbandon3 (enterFrame log) (abandonFrame3 log))
          (connectFrame log))
        (completeFrame3 log))
      (holdFrame3 log)).map fillna3

/-- The `test04.py` reconstructor with its error path: the hold-frame
merge comes from `groupby("callid").apply(find_hold_time)`, and when
the fetched log has no HOLD/UNHOLD/COMPLETE* row at all the empty
apply produces no `hold_duration` column, so the closing
`.assign(hold_duration=lambda x: x.hold_duration.fillna(0))` raises an
AttributeError and nothing is emitted (`none`).  `test04.py` guards
the other data-dependent columns (ABANDON/EXITEMPTY) with
`fill_value`/`x.get(…)`, so no further error path exists there. -/
def record_of_calls04 (log : List RawEvent) : Option (List Rec) :=
  if (log.filter fun r =>
      r.event == QEvent.HOLD || r.event == QEvent.UNHOLD ||
      r.event == QEvent.COMPLETEAGENT || r.event == QEvent.COMPLETECALLER).isEmpty
  then none
  else some (record_of_calls log)

/-- The `script_test.py`/`test01.py`/`test02.py` reconstructor with its
error paths: the ABANDON/EXITEMPTY pivot's columns are data-dependent
(one column per event value present among the pivoted rows), so when
the fetched log has no ABANDON row or no EXITEMPTY row the fixed
closing projection `[[…,"ABANDON","EXITEMPTY",…]]` raises a KeyError;
and, as in every variant, a log with no HOLD/UNHOLD/COMPLETE* row
leaves no `hold_duration` column and the assign raises an
AttributeError.  In each case the exception is caught and nothing is
emitted (`none`). -/
def record_of_calls_strict (log : List RawEvent) : Option (List Rec) :=
  if (log.filter fun r => r.event == QEvent.ABANDON).isEmpty ||
     (log.filter fun r => r.event == QEvent.EXITEMPTY).isEmpty ||
     (log.filter fun r =>
       r.event == QEvent.HOLD || r.event == QEvent.UNHOLD ||
       r.event == QEvent.COMPLETEAGENT || r.event == QEvent.COMPLETECALLER).isEmpty
  then none
  else some (record_of_calls log)

/-! ## Sink Writer (`push_data_to_db`, `INSERT … ON CONFLICT DO NOTHING`) -/

/-- One `INSERT INTO asterisk.call_logs … ON CONFLICT (callid) DO
NOTHING`: appended only when no row with the same callid exists. -/
def insertSkipConflict (dest : List Rec) (r : Rec) : List Rec :=
  if dest.any (fun d => d.callid == r.callid) then dest else dest ++ [r]

/-- `push_data_to_db` from `test04.py`: the whole batch is one
transaction — if any row's insert raises (`failing`), the exception is
caught, the transaction is rolled back and the destination is left
unchanged (the function never re-raises); otherwise every row is
inserted with conflict = skip and committed. -/
def push_data_to_db (failing : Rec → Bool) (dest : List Rec) (records : List Rec) : List Rec :=
  if records.any failing then dest else records.foldl insertSkipConflict dest

/-! ## Watermark pipeline of `test04.py` (`connect_and_process`) -/

/-- `q_event IN ('EXITEMPTY','COMPLETEAGENT','COMPLETECALLER','ABANDON')`. -/
def isTerminalEvent (e : QEvent) : Bool :=
  e == QEvent.EXITEMPTY || e == QEvent.COMPLETEAGENT ||
  e == QEvent.COMPLETECALLER || e == QEvent.ABANDON

/-- Step 1 of `test04.py`: `UPDATE … SET flag = 1 WHERE flag = 0 AND
q_event IN (…) AND time BETWEEN s AND t`. -/
def markClaimed (db : List RawEvent) (s t : Int) : List RawEvent :=
  db.map fun r =>
    if r.flag == 0 && isTerminalEvent r.event && decide (s ≤ r.time) && decide (r.time ≤ t)
    then { r with flag := 1 } else r

/-- Step 2 of `test04.py`: `SELECT ql.* FROM queue_log ql JOIN
finished_call_ids fci ON ql.callid = fci.callid`, where
`finished_call_ids` selects the callid of every CLAIMED (`flag = 1`)
row with no DISTINCT — so the join returns each event row once per
`flag = 1` row of its call. -/
def fetchClaimed (db : List RawEvent) : List RawEvent :=
  db.flatMap fun r =>
    (db.filter fun q => q.flag == 1 && q.callid == r.callid).map fun _ => r

/-- Step 3 of `test04.py`: `UPDATE … SET flag = 2 WHERE flag = 1`,
executed unconditionally after `push_data_to_db` returns. -/
def markDone (db : List RawEvent) : List RawEvent :=
  db.map fun r => if r.flag == 1 then { r with flag := 2 } else r

/-- The watermark portion of `test04.py`'s `connect_and_process`:
claim, fetch, reconstruct, persist (which swallows batch failures), then
unconditionally advance every CLAIMED row to DONE.  When the
reconstruction itself raises (`record_of_calls04` = `none`), the
exception lands in the outer `except` clause and the flag-2 update is
never executed: the claimed rows stay at flag 1 and the destination is
untouched.  Returns the final source rows and destination table. -/
def connect_and_process04 (failing : Rec → Bool) (db : List RawEvent) (dest : List Rec)
    (s t : Int) : List RawEvent × List Rec :=
  let db1 := markClaimed db s t
  match record_of_calls04 (fetchClaimed db1) with
  | none => (db1, dest)
  | some records => (markDone db1, push_data_to_db failing dest records)

/-! ## Shard Connector (`get_database_connection`) -/

/-- `\w` of the descriptor regex, over the ASCII range the descriptors
use. -/
def isWordChar (c : Char) : Bool := c.isAlphanum || c == '_'

/-- Leading-literal test used by the regex search. -/
def startsWithChars : List Char → List Char → Bool
  | [], _ => true
  | _ :: _, [] => false
  | a :: as, b :: bs => a == b && startsWithChars as bs

/-- The lazy `(.*?)/(\w+)` tail of the pattern: consume the minimal
host prefix (never `'\n'`, which `.` does not match) up to a `'/'` that
is followed by at least one word character. -/
def splitHost : List Char → Option (List Char × List Char)
  | [] => none
  | c :: rest =>
      if c = '\n' then none
      else
        match rest with
        | [] => none
        | d :: _ =>
            if c = '/' ∧ isWordChar d then some ([], rest)
            else (splitHost rest).map fun p => (c :: p.1, p.2)

/-- Greedy `\w+` capture. -/
def takeWord : List Char → List Char
  | [] => []
  | c :: rest => if isWordChar c then c :: takeWord rest else []

/-- The literal part of `re.compile(r"postgres:postgres@(.*?)/(\w+)")`. -/
def pgLiteral : List Char := "postgres:postgres@".toList

/-- `pattern.search(url)` for the descriptor regex used by `test01.py`
and `test04.py`: leftmost match of the literal followed by a lazy host
capture and a greedy word capture; returns `(host, dbname)`. -/
def reSearch : List Char → Option (List Char × List Char)
  | [] => none
  | c :: rest =>
      if startsWithChars pgLiteral (c :: rest) then
        match splitHost ((c :: rest).drop pgLiteral.length) with
        | some (h, t) => some (h, takeWord t)
        | none => reSearch rest
      else reSearch rest

/-- Attempts made and back-off sleeps performed by the retry loop. -/
structure ConnTrace where
  attempts : Nat
  sleeps : List Nat
deriving DecidableEq

/-- The `for attempt in range(retries)` loop of
`get_database_connection`: `oracle i` tells whether the `i`-th
`psycopg2.connect` call succeeds (the connection handle is modelled by
the attempt index); each failure sleeps `2 ** attempt` seconds. -/
def connectLoop (oracle : Nat → Bool) : Nat → Nat → Option Nat × ConnTrace
  | _, 0 => (none, ⟨0, []⟩)
  | i, n + 1 =>
      if oracle i then (some i, ⟨1, []⟩)
      else
        let (r, tr) := connectLoop oracle (i + 1) n
        (r, ⟨tr.attempts + 1, 2 ^ i :: tr.sleeps⟩)

/-- `get_database_connection` from `test01.py` (the `test04.py` copy is
identical): a descriptor that the pattern does not match fails
immediately with no connection attempt; otherwise the bounded retry
loop runs.  The Python function returns `(conn, dbname)` on success and
a bare `None` on both failure paths; here `none` stands for that
`None`, paired with the attempt/sleep trace. -/
def get_database_connection (url : String) (oracle : Nat → Bool) (retries : Nat) :
    Option (Nat × String) × ConnTrace :=
  match reSearch url.toList with
  | none => (none, ⟨0, []⟩)
  | some (_host, db) =>
      let (c, tr) := connectLoop oracle 0 retries
      (c.map (fun i => (i, String.mk db)), tr)

/-! ## `test01.py` sequential orchestration -/

/-- `connect_and_process` from `test01.py`, at shard granularity.  The
caller unpacks `conn,dbname = get_database_connection(db_url)`; when
the connector returned a bare `None` this raises a `TypeError` before
the `if not conn` guard can run.  When the extraction query fails, the
exception is caught and logged, but the `pd.DataFrame(call_log_data,…)`
call after the `try/finally` reads the never-assigned variable and
raises a `NameError`.  Uncaught exceptions are modelled as
`Except.error`. -/
def connect_and_process01 (url : String) (oracle : Nat → Bool) (queryOk : Bool) :
    Except String Unit :=
  match (get_database_connection url oracle 3).1 with
  | none => Except.error "TypeError: cannot unpack non-iterable NoneType object"
  | some _ =>
      if queryOk then Except.ok ()
      else Except.error "NameError: name call_log_data is not defined"

/-- `main` from `test01.py` (same shape in `test04.py`): a plain
sequential `for db_url in db_urls` loop with no `try/except` around
`connect_and_process`, so an uncaught exception aborts the remaining
shards.  Returns the list of shards processed to completion and the
uncaught exception, if any. -/
def main01 (oracle : String → Nat → Bool) (queryOk : String → Bool) :
    List String → List String × Option String
  | [] => ([], none)
  | u :: rest =>
      match connect_and_process01 u (oracle u) (queryOk u) with
      | Except.ok _ =>
          let (ps, e) := main01 oracle queryOk rest
          (u :: ps, e)
      | Except.error m => ([], some m)

/-! ## Concrete inputs used by counterexamples and witnesses -/

/-- A time-sorted HOLD/UNHOLD sequence in which an UNHOLD is not
immediately preceded by a HOLD. -/
def c1seq : List (Int × QEvent) :=
  [(0, QEvent.HOLD), (10, QEvent.UNHOLD), (20, QEvent.UNHOLD)]

/-- The spec's scenario call `C3`: ENTERQUEUE@0, CONNECT@5, HOLD@10,
COMPLETEAGENT@40. -/
def c3log : List RawEvent :=
  [ { callid := "C3", time := 0, event := QEvent.ENTERQUEUE, queuename := "Q1", agent := "",
      data1 := 0, data2 := 555, data3 := 0 },
    { callid := "C3", time := 5, event := QEvent.CONNECT, queuename := "Q1", agent := "A1",
      data1 := 5, data2 := 0, data3 := 0 },
    { callid := "C3", time := 10, event := QEvent.HOLD, queuename := "Q1", agent := "A1",
      data1 := 0, data2 := 0, data3 := 0 },
    { callid := "C3", time := 40, event := QEvent.COMPLETEAGENT, queuename := "Q1",
      agent := "A1", data1 := 0, data2 := 30, data3 := 0 } ]

/-- Call `C3`'s hold-relevant filtered sequence: exactly two events. -/
def c3HoldSeq : List (Int × QEvent) := [(10, QEvent.HOLD), (40, QEvent.COMPLETEAGENT)]

/-- The session record the pipeline produces for `c3log`. -/
def c3rec : Rec :=
  { callid := "C3", queuename := some "Q1", src := some 555, enterqueue := some 0,
    connect := some 5, agent := some "A1", waited_duration := some 5, complete := some 40,
    call_duration := some 30, agent_completed := some true, hold_duration := some 0 }

/-- A call whose group has two CONNECT events. -/
def dupConnectLog : List RawEvent :=
  [ { callid := "D", time := 0, event := QEvent.ENTERQUEUE, queuename := "Q", agent := "",
      data1 := 0, data2 := 7, data3 := 0 },
    { callid := "D", time := 5, event := QEvent.CONNECT, queuename := "Q", agent := "A1",
      data1 := 5, data2 := 0, data3 := 0 },
    { callid := "D", time := 7, event := QEvent.CONNECT, queuename := "Q", agent := "A2",
      data1 := 7, data2 := 0, data3 := 0 },
    { callid := "D", time := 20, event := QEvent.COMPLETEAGENT, queuename := "Q",
      agent := "A1", data1 := 0, data2 := 15, data3 := 0 } ]

/-- A call group with a terminal event but no ENTERQUEUE. -/
def abandonOnlyLog : List RawEvent :=
  [ { callid := "X", time := 30, event := QEvent.ABANDON, queuename := "Q", agent := "",
      data1 := 0, data2 := 0, data3 := 30 } ]

/-- A call that entered the queue and abandoned, never connected. -/
def abandonedCallLog : List RawEvent :=
  [ { callid := "N", time := 0, event := QEvent.ENTERQUEUE, queuename := "Q2", agent := "",
      data1 := 0, data2 := 777, data3 := 0 },
    { callid := "N", time := 30, event := QEvent.ABANDON, queuename := "Q2", agent := "",
      data1 := 0, data2 := 0, data3 := 30 } ]

/-- The record produced for `abandonedCallLog`. -/
def abandonedRec : Rec :=
  { callid := "N", queuename := some "Q2", src := some 777, enterqueue := some 0,
    wda := some 30, abandon := some 30, waited_duration := some 30,
    call_duration := some 0, hold_duration := some 0 }

/-- Source rows for the watermark run: one call with an in-window
terminal COMPLETEAGENT event, everything UNCLAIMED.  The COMPLETEAGENT
row keeps the hold frame non-empty, so `test04.py`'s reconstruction
succeeds and the run really reaches the persistence and flag-2
steps. -/
def c2db : List RawEvent :=
  [ { callid := "C", time := 0, event := QEvent.ENTERQUEUE, queuename := "Q", agent := "",
      data1 := 0, data2 := 9, data3 := 0, flag := 0 },
    { callid := "C", time := 5, event := QEvent.COMPLETEAGENT, queuename := "Q", agent := "A1",
      data1 := 0, data2 := 5, data3 := 0, flag := 0 } ]

/-- Source rows whose only terminal event is an ABANDON: the fetched
log then has no HOLD/UNHOLD/COMPLETE* row, reconstruction raises in
the hold_duration assign, and `test04.py` never reaches the flag-2
update. -/
def c2dbNoHold : List RawEvent :=
  [ { callid := "C", time := 0, event := QEvent.ENTERQUEUE, queuename := "Q", agent := "",
      data1 := 0, data2 := 9, data3 := 0, flag := 0 },
    { callid := "C", time := 5, event := QEvent.ABANDON, queuename := "Q", agent := "",
      data1 := 0, data2 := 0, data3 := 5, flag := 0 } ]

/-- Call `C3`'s events together with one ABANDON call and one EXITEMPTY
call, so that every data-dependent pivot column exists and even the
strictest reconstructor variant emits. -/
def c6log : List RawEvent := c3log ++
  [ { callid := "Y", time := 50, event := QEvent.ABANDON, queuename := "Q1", agent := "",
      data1 := 0, data2 := 0, data3 := 7 },
    { callid := "Z", time := 60, event := QEvent.EXITEMPTY, queuename := "Q1", agent := "",
      data1 := 0, data2 := 0, data3 := 8 } ]

/-! ## Helper lemmas about the merge combinators -/

theorem diffUnholdSum_eq_unholdAdjacentSum (g : List (Int × QEvent)) :
    diffUnholdSum g = unholdAdjacentSum g := by
  induction g with
  | nil => rfl
  | cons a t ih =>
      cases t with
      | nil => rfl
      | cons b t' =>
          have h : unholdAdjacentSum (a :: b :: t') =
              (if b.2 = QEvent.UNHOLD then b.1 - a.1 else 0) + unholdAdjacentSum (b :: t') := by
            simp [unholdAdjacentSum]
          rw [h, ← ih]
          simp [diffUnholdSum]

theorem mem_mergeRow {comb : Rec → Rec → Rec} {R : List Rec} {a r : Rec}
    (h : r ∈ mergeRow comb R a) :
    (∃ b, b ∈ R ∧ (b.callid == a.callid) = true ∧ r = comb a b) ∨ r = a := by
  unfold mergeRow at h
  by_cases he : (R.filter (fun b => b.callid == a.callid)).isEmpty
  · rw [if_pos he] at h
    right
    simpa using h
  · rw [if_neg he] at h
    left
    obtain ⟨b, hb, hbr⟩ := List.mem_map.mp h
    have := List.mem_filter.mp hb
    exact ⟨b, this.1, this.2, hbr.symm⟩

theorem of_mem_outerMergeBy {comb : Rec → Rec → Rec} {L R : List Rec} {r : Rec}
    (h : r ∈ outerMergeBy comb L R) :
    (∃ a, a ∈ L ∧ ((∃ b, b ∈ R ∧ (b.callid == a.callid) = true ∧ r = comb a b) ∨ r = a)) ∨
    (r ∈ R ∧ (L.any fun x => x.callid == r.callid) = false) := by
  unfold outerMergeBy at h
  rcases List.mem_append.mp h with h1 | h2
  · obtain ⟨a, haL, hma⟩ := List.mem_flatMap.mp h1
    exact Or.inl ⟨a, haL, mem_mergeRow hma⟩
  · have hf := List.mem_filter.mp h2
    refine Or.inr ⟨hf.1, ?_⟩
    have := hf.2
    simpa using this

theorem of_mem_leftMergeBy {comb : Rec → Rec → Rec} {L R : List Rec} {r : Rec}
    (h : r ∈ leftMergeBy comb L R) :
    (∃ a, a ∈ L ∧ ((∃ b, b ∈ R ∧ (b.callid == a.callid) = true ∧ r = comb a b) ∨ r = a)) := by
  unfold leftMergeBy at h
  obtain ⟨a, haL, hma⟩ := List.mem_flatMap.mp h
  exact ⟨a, haL, mem_mergeRow hma⟩

theorem outerMergeBy_forall {comb : Rec → Rec → Rec} {L R : List Rec} {P : Rec → Prop}
    (hc : ∀ a b, a ∈ L → b ∈ R → (b.callid == a.callid) = true → P a → P b → P (comb a b))
    (hL : ∀ r ∈ L, P r) (hR : ∀ r ∈ R, P r) :
    ∀ r ∈ outerMergeBy comb L R, P r := by
  intro r hr
  rcases of_mem_outerMergeBy hr with ⟨a, haL, (⟨b, hbR, hbeq, rfl⟩ | rfl)⟩ | ⟨hrR, -⟩
  · exact hc a b haL hbR hbeq (hL a haL) (hR b hbR)
  · exact hL _ haL
  · exact hR r hrR

theorem outerMergeBy_forall_keyed {comb : Rec → Rec → Rec} {L R : List Rec} {c : String}
    {P : Rec → Prop}
    (hkey : ∀ r : Rec, r.callid ≠ c → P r)
    (hex : ∃ a, a ∈ L ∧ a.callid = c)
    (hc : ∀ a b, a ∈ L → b ∈ R → (b.callid == a.callid) = true → P a → P (comb a b))
    (hL : ∀ r ∈ L, P r) :
    ∀ r ∈ outerMergeBy comb L R, P r := by
  intro r hr
  rcases of_mem_outerMergeBy hr with ⟨a, haL, (⟨b, hbR, hbeq, rfl⟩ | rfl)⟩ | ⟨-, hany⟩
  · exact hc a b haL hbR hbeq (hL a haL)
  · exact hL _ haL
  · by_cases hrc : r.callid = c
    · obtain ⟨a, haL, hac⟩ := hex
      have : L.any (fun x => x.callid == r.callid) = true := by
        refine List.any_eq_true.mpr ⟨a, haL, ?_⟩
        simp [hac, hrc]
      rw [this] at hany
      cases hany
    · exact hkey r hrc

theorem leftMergeBy_forall {comb : Rec → Rec → Rec} {L R : List Rec} {P : Rec → Prop}
    (hc : ∀ a b, a ∈ L → b ∈ R → (b.callid == a.callid) = true → P a → P (comb a b))
    (hL : ∀ r ∈ L, P r) :
    ∀ r ∈ leftMergeBy comb L R, P r := by
  intro r hr
  rcases of_mem_leftMergeBy hr with ⟨a, haL, (⟨b, hbR, hbeq, rfl⟩ | rfl)⟩
  · exact hc a b haL hbR hbeq (hL a haL)
  · exact hL _ haL

theorem countP_dedupFirst_le {α : Type} [DecidableEq α] (p : α → Bool) :
    ∀ (l seen : List α), (dedupFirst seen l).countP p ≤ l.countP p := by
  intro l
  induction l with
  | nil => intro seen; simp [dedupFirst]
  | cons x xs ih =>
      intro seen
      by_cases hx : x ∈ seen
      · rw [dedupFirst, if_pos hx, List.countP_cons]
        have := ih seen
        omega
      · rw [dedupFirst, if_neg hx, List.countP_cons, List.countP_cons]
        have := ih (x :: seen)
        omega

theorem dedupFirst_countP_eq_zero {α : Type} [DecidableEq α] (c : α) :
    ∀ (l seen : List α), c ∈ seen →
      (dedupFirst seen l).countP (fun x => decide (x = c)) = 0 := by
  intro l
  induction l with
  | nil => intro seen _; simp [dedupFirst]
  | cons x xs ih =>
      intro seen hc
      by_cases hx : x ∈ seen
      · rw [dedupFirst, if_pos hx]
        exact ih seen hc
      · rw [dedupFirst, if_neg hx, List.countP_cons]
        have hxc : x ≠ c := fun h => hx (h ▸ hc)
        rw [ih (x :: seen) (List.mem_cons_of_mem _ hc)]
        simp [hxc]

theorem dedupFirst_countP_le_one {α : Type} [DecidableEq α] (c : α) :
    ∀ (l seen : List α), (dedupFirst seen l).countP (fun x => decide (x = c)) ≤ 1 := by
  intro l
  induction l with
  | nil => intro seen; simp [dedupFirst]
  | cons x xs ih =>
      intro seen
      by_cases hx : x ∈ seen
      · rw [dedupFirst, if_pos hx]
        exact ih seen
      · rw [dedupFirst, if_neg hx, List.countP_cons]
        by_cases hxc : x = c
        · subst hxc
          rw [dedupFirst_countP_eq_zero x xs (x :: seen) (List.mem_cons_self x seen)]
          simp
        · have := ih (x :: seen)
          simp [hxc]
          omega

theorem mem_dedupFirst {α : Type} [DecidableEq α] :
    ∀ (l seen : List α) (x : α), x ∈ dedupFirst seen l → x ∈ l := by
  intro l
  induction l with
  | nil => intro seen x hx; simp [dedupFirst] at hx
  | cons a as ih =>
      intro seen x hx
      by_cases ha : a ∈ seen
      · rw [dedupFirst, if_pos ha] at hx
        exact List.mem_cons_of_mem a (ih seen x hx)
      · rw [dedupFirst, if_neg ha] at hx
        rcases List.mem_cons.mp hx with rfl | hx2
        · exact List.mem_cons_self x as
        · exact List.mem_cons_of_mem a (ih (a :: seen) x hx2)

theorem dedupFirst_countP_le_one_of_unique {α : Type} [DecidableEq α] (p : α → Bool)
    (l : List α)
    (huniq : ∀ x, x ∈ l → ∀ y, y ∈ l → p x = true → p y = true → x = y)
    (seen : List α) :
    (dedupFirst seen l).countP p ≤ 1 := by
  by_cases hex : ∃ x, x ∈ dedupFirst seen l ∧ p x = true
  · obtain ⟨x0, hx0, hpx0⟩ := hex
    have hmem0 := mem_dedupFirst l seen x0 hx0
    have hcongr : (dedupFirst seen l).countP p =
        (dedupFirst seen l).countP (fun y => decide (y = x0)) := by
      apply List.countP_congr
      intro y hy
      constructor
      · intro hpy
        have := huniq y (mem_dedupFirst l seen y hy) x0 hmem0 hpy hpx0
        simpa using this
      · intro hyx
        have hy0 : y = x0 := by simpa using hyx
        rw [hy0]
        exact hpx0
    rw [hcongr]
    exact dedupFirst_countP_le_one x0 l seen
  · have hzero : (dedupFirst seen l).countP p = 0 :=
      List.countP_eq_zero.mpr (fun x hx hp => hex ⟨x, hx, hp⟩)
    omega

theorem countP_mergeRow {comb : Rec → Rec → Rec}
    (hcomb : ∀ a b, (comb a b).callid = a.callid) (R : List Rec) (c : String) (a : Rec) :
    (mergeRow comb R a).countP (fun r => r.callid == c) =
      if a.callid = c then max (R.countP (fun r => r.callid == c)) 1 else 0 := by
  unfold mergeRow
  by_cases he : (R.filter (fun b => b.callid == a.callid)).isEmpty
  · rw [if_pos he]
    have hzero : R.countP (fun b => b.callid == a.callid) = 0 := by
      rw [List.countP_eq_length_filter]
      simpa using congrArg List.length (List.isEmpty_iff.mp he)
    by_cases hac : a.callid = c
    · rw [if_pos hac]
      rw [hac] at hzero
      rw [hzero]
      simp [List.countP_singleton, hac]
    · rw [if_neg hac]
      simp [List.countP_singleton, hac]
  · rw [if_neg he]
    rw [List.countP_map]
    have hlen : 0 < (R.filter (fun b => b.callid == a.callid)).length := by
      cases hf : R.filter (fun b => b.callid == a.callid) with
      | nil => rw [hf] at he; simp at he
      | cons y ys => simp [hf]
    by_cases hac : a.callid = c
    · rw [if_pos hac]
      have hall : (R.filter (fun b => b.callid == a.callid)).countP
          ((fun r => r.callid == c) ∘ comb a) =
          (R.filter (fun b => b.callid == a.callid)).length := by
        rw [List.countP_eq_length]
        intro b _
        simp [Function.comp, hcomb, hac]
      rw [hall]
      have hRc : R.countP (fun r => r.callid == c) =
          (R.filter (fun b => b.callid == a.callid)).length := by
        rw [← List.countP_eq_length_filter]
        apply List.countP_congr
        intro b _
        rw [hac]
      omega
    · rw [if_neg hac]
      rw [List.countP_eq_zero]
      intro b _
      simp [Function.comp, hcomb, hac]

theorem countP_flatMap_mergeRow {comb : Rec → Rec → Rec}
    (hcomb : ∀ a b, (comb a b).callid = a.callid) (R : List Rec) (c : String) :
    ∀ L : List Rec, (L.flatMap (mergeRow comb R)).countP (fun r => r.callid == c) =
      L.countP (fun r => r.callid == c) * max (R.countP (fun r => r.callid == c)) 1 := by
  intro L
  induction L with
  | nil => simp
  | cons a L' ih =>
      rw [List.flatMap_cons, List.countP_append, ih, countP_mergeRow hcomb, List.countP_cons]
      by_cases hac : a.callid = c
      · simp only [if_pos hac, hac]
        simp [Nat.add_mul]
        ring
      · have : (a.callid == c) = false := by
          simp [hac]
        simp [if_neg hac, this]

theorem countP_onlyR {L R : List Rec} {c : String} (hex : ∃ a, a ∈ L ∧ a.callid = c) :
    (R.filter (fun b => ! L.any fun x => x.callid == b.callid)).countP
      (fun r => r.callid == c) = 0 := by
  rw [List.countP_eq_zero]
  intro b hb hbc
  obtain ⟨a, haL, hac⟩ := hex
  have hb2 := (List.mem_filter.mp hb).2
  have hbceq : b.callid = c := by simpa using hbc
  have hany : L.any (fun x => x.callid == b.callid) = true :=
    List.any_eq_true.mpr ⟨a, haL, by simp [hac, hbceq]⟩
  rw [hany] at hb2
  simp at hb2

theorem countP_outerMergeBy_eq_one (comb : Rec → Rec → Rec)
    (hcomb : ∀ a b, (comb a b).callid = a.callid) {L R : List Rec} {c : String}
    (hL : L.countP (fun r => r.callid == c) = 1)
    (hR : R.countP (fun r => r.callid == c) ≤ 1) :
    (outerMergeBy comb L R).countP (fun r => r.callid == c) = 1 := by
  have hex : ∃ a, a ∈ L ∧ a.callid = c := by
    have hpos : 0 < L.countP (fun r => r.callid == c) := by omega
    obtain ⟨a, haL, ha⟩ := List.countP_pos_iff.mp hpos
    exact ⟨a, haL, by simpa using ha⟩
  unfold outerMergeBy
  rw [List.countP_append, countP_flatMap_mergeRow hcomb, hL, countP_onlyR hex]
  omega

theorem countP_leftMergeBy_eq_one (comb : Rec → Rec → Rec)
    (hcomb : ∀ a b, (comb a b).callid = a.callid) {L R : List Rec} {c : String}
    (hL : L.countP (fun r => r.callid == c) = 1)
    (hR : R.countP (fun r => r.callid == c) ≤ 1) :
    (leftMergeBy comb L R).countP (fun r => r.callid == c) = 1 := by
  unfold leftMergeBy
  rw [countP_flatMap_mergeRow hcomb, hL]
  omega

theorem countP_filter_of_imp (l : List Rec) (p q : Rec → Bool)
    (h : ∀ r ∈ l, p r = true → q r = true) :
    (l.filter q).countP p = l.countP p := by
  rw [List.countP_filter]
  apply List.countP_congr
  intro r hr
  cases hp : p r
  · simp [hp]
  · simp [hp, h r hr hp]

theorem countP_enterFrame (log : List RawEvent) (c : String) :
    (enterFrame log).countP (fun r => r.callid == c) =
      log.countP (fun e => e.callid == c && e.event == QEvent.ENTERQUEUE) := by
  unfold enterFrame
  rw [List.countP_map, List.countP_filter]
  apply List.countP_congr
  intro e _
  simp [Function.comp]

theorem countP_connectFrame (log : List RawEvent) (c : String) :
    (connectFrame log).countP (fun r => r.callid == c) =
      log.countP (fun e => e.callid == c && e.event == QEvent.CONNECT) := by
  unfold connectFrame
  rw [List.countP_map, List.countP_filter]
  apply List.countP_congr
  intro e _
  simp [Function.comp]

theorem countP_completeFrame (log : List RawEvent) (c : String) :
    (completeFrame log).countP (fun r => r.callid == c) =
      log.countP (fun e => e.callid == c &&
        (e.event == QEvent.COMPLETEAGENT || e.event == QEvent.COMPLETECALLER)) := by
  unfold completeFrame
  rw [List.countP_map, List.countP_filter]
  apply List.countP_congr
  intro e _
  simp [Function.comp]

theorem countP_abandonFrame_le (log : List RawEvent) (c : String) :
    (abandonFrame log).countP (fun r => r.callid == c) ≤
      log.countP (fun e => e.callid == c &&
        (e.event == QEvent.ABANDON || e.event == QEvent.EXITEMPTY)) := by
  unfold abandonFrame
  rw [List.countP_map]
  refine le_trans (le_of_eq (List.countP_congr (fun k _ => ?_)))
    (le_trans (countP_dedupFirst_le (fun k => k.1 == c) _ _) (le_of_eq ?_))
  · simp [Function.comp]
  · rw [List.countP_map, List.countP_filter]
    apply List.countP_congr
    intro e _
    simp [Function.comp]

theorem countP_abandonFrame_le_one_of_unique (log : List RawEvent) (c : String)
    (hkey : ∀ e1, e1 ∈ log → ∀ e2, e2 ∈ log →
      (e1.event == QEvent.ABANDON || e1.event == QEvent.EXITEMPTY) = true →
      (e2.event == QEvent.ABANDON || e2.event == QEvent.EXITEMPTY) = true →
      e1.callid = c → e2.callid = c → e1.data3 = e2.data3) :
    (abandonFrame log).countP (fun r => r.callid == c) ≤ 1 := by
  unfold abandonFrame
  rw [List.countP_map]
  refine le_trans (le_of_eq (List.countP_congr (fun k _ => ?_)))
    (dedupFirst_countP_le_one_of_unique (fun k => k.1 == c) _ ?_ [])
  · simp [Function.comp]
  · intro x hx y hy hpx hpy
    obtain ⟨e1, he1, rfl⟩ := List.mem_map.mp hx
    obtain ⟨e2, he2, rfl⟩ := List.mem_map.mp hy
    have hf1 := List.mem_filter.mp he1
    have hf2 := List.mem_filter.mp he2
    have h1c : e1.callid = c := by simpa using hpx
    have h2c : e2.callid = c := by simpa using hpy
    have hd := hkey e1 hf1.1 e2 hf2.1 hf1.2 hf2.2 h1c h2c
    simp [h1c, h2c, hd]

theorem countP_holdFrame_le_one (log : List RawEvent) (c : String) :
    (holdFrame log).countP (fun r => r.callid == c) ≤ 1 := by
  unfold holdFrame
  rw [List.countP_map]
  refine le_trans (le_of_eq (List.countP_congr ?_)) (dedupFirst_countP_le_one c _ _)
  intro cid _
  simp [Function.comp]

/-! ## Helper lemmas about the Sink Writer -/

theorem any_key_insertSkipConflict (d : List Rec) (r : Rec) (x : String)
    (h : d.any (fun y => y.callid == x) = true) :
    (insertSkipConflict d r).any (fun y => y.callid == x) = true := by
  unfold insertSkipConflict
  split
  · exact h
  · rw [List.any_append]
    simp [h]

theorem any_key_insertSkipConflict_self (d : List Rec) (r : Rec) :
    (insertSkipConflict d r).any (fun y => y.callid == r.callid) = true := by
  unfold insertSkipConflict
  split
  · next h => exact h
  · rw [List.any_append]
    simp

theorem any_key_foldl_insert (rs : List Rec) :
    ∀ (d : List Rec) (x : String), d.any (fun y => y.callid == x) = true →
      ((rs.foldl insertSkipConflict d).any (fun y => y.callid == x)) = true := by
  induction rs with
  | nil => intro d x h; exact h
  | cons a rs' ih =>
      intro d x h
      exact ih (insertSkipConflict d a) x (any_key_insertSkipConflict d a x h)

theorem mem_key_foldl_insert (rs : List Rec) :
    ∀ (d : List Rec) (r : Rec), r ∈ rs →
      ((rs.foldl insertSkipConflict d).any (fun y => y.callid == r.callid)) = true := by
  induction rs with
  | nil => intro d r h; cases h
  | cons a rs' ih =>
      intro d r h
      rcases List.mem_cons.mp h with rfl | h'
      · exact any_key_foldl_insert rs' (insertSkipConflict d r) r.callid
          (any_key_insertSkipConflict_self d r)
      · exact ih (insertSkipConflict d a) r h'

theorem foldl_insert_of_all_present (rs : List Rec) :
    ∀ d : List Rec, (∀ r ∈ rs, d.any (fun y => y.callid == r.callid) = true) →
      rs.foldl insertSkipConflict d = d := by
  induction rs with
  | nil => intro d _; rfl
  | cons a rs' ih =>
      intro d h
      have hda : insertSkipConflict d a = d := by
        unfold insertSkipConflict
        rw [if_pos (h a (List.mem_cons_self a rs'))]
      show rs'.foldl insertSkipConflict (insertSkipConflict d a) = d
      rw [hda]
      exact ih d (fun r hr => h r (List.mem_cons_of_mem a hr))

/-! ## Helper lemmas about the Shard Connector retry loop -/

theorem connectLoop_all_fail (oracle : Nat → Bool) :
    ∀ (n i : Nat), (∀ j, j < n → oracle (i + j) = false) →
      connectLoop oracle i n = (none, ⟨n, (List.range n).map fun j => 2 ^ (i + j)⟩) := by
  intro n
  induction n with
  | zero => intro i _; rfl
  | succ m ih =>
      intro i h
      have h0 : oracle i = false := by simpa using h 0 (Nat.succ_pos m)
      have hrec := ih (i + 1) (fun j hj => by
        have := h (j + 1) (Nat.succ_lt_succ hj)
        simpa [Nat.add_assoc, Nat.add_comm 1 j] using this)
      rw [connectLoop, if_neg (by simp [h0]), hrec]
      simp [List.range_succ_eq_map, List.map_map, Function.comp, Nat.add_assoc,
        Nat.add_comm 1]

theorem connectLoop_first_success (oracle : Nat → Bool) :
    ∀ (k i n : Nat), oracle (i + k) = true → (∀ j, j < k → oracle (i + j) = false) →
      k < n →
      connectLoop oracle i n = (some (i + k), ⟨k + 1, (List.range k).map fun j => 2 ^ (i + j)⟩) := by
  intro k
  induction k with
  | zero =>
      intro i n hk _ hn
      obtain ⟨m, rfl⟩ := Nat.exists_eq_succ_of_ne_zero (Nat.pos_iff_ne_zero.mp hn)
      rw [connectLoop, if_pos (by simpa using hk)]
      simp
  | succ p ih =>
      intro i n hk hfail hn
      obtain ⟨m, rfl⟩ := Nat.exists_eq_succ_of_ne_zero
        (Nat.pos_iff_ne_zero.mp (Nat.lt_of_le_of_lt (Nat.zero_le _) hn))
      have h0 : oracle i = false := by simpa using hfail 0 (Nat.succ_pos p)
      have hrec := ih (i + 1) m
        (by
          have : i + 1 + p = i + (p + 1) := by omega
          rw [this]; exact hk)
        (fun j hj => by
          have := hfail (j + 1) (Nat.succ_lt_succ hj)
          have heq : i + 1 + j = i + (j + 1) := by omega
          rw [heq]; exact this)
        (Nat.lt_of_succ_lt_succ hn)
      rw [connectLoop, if_neg (by simp [h0]), hrec]
      have h1 : i + 1 + p = i + (p + 1) := by omega
      simp [h1, List.range_succ_eq_map, List.map_map, Function.comp]
      intro a _
      omega

theorem insertSkipConflict_of_present (d : List Rec) (r : Rec)
    (h : d.any (fun y => y.callid == r.callid) = true) : insertSkipConflict d r = d := by
  unfold insertSkipConflict
  rw [if_pos h]

/-! ## Claim theorems -/

/-- C1 (counterexample): `find_hold_time` does NOT return the sum of
(unhold_ts − hold_ts) over pairs matching each HOLD with the next
UNHOLD that follows it.  On HOLD@0, UNHOLD@10, UNHOLD@20 the pairing
sum is 10, but the code pairs every UNHOLD with its immediately
preceding row and returns 20. -/
theorem c1_hold_pairing_counterexample :
    find_hold_time c1seq = 20 ∧ specFindHoldTime c1seq = 10 ∧
      find_hold_time c1seq ≠ specFindHoldTime c1seq := by
  refine ⟨rfl, rfl, ?_⟩
  intro h
  simp only [show find_hold_time c1seq = 20 from rfl,
    show specFindHoldTime c1seq = 10 from rfl] at h
  omega

/-- C1 (amended): for every time-sorted HOLD/UNHOLD/COMPLETE* sequence,
`find_hold_time` returns 0 when the sequence has ≤ 2 events, and
otherwise — after the second-to-last-is-HOLD substitution — the sum
over every UNHOLD row of (its timestamp minus the immediately
preceding row's timestamp); each UNHOLD is paired with the adjacent
preceding row, not each HOLD with the next UNHOLD. -/
theorem c1_find_hold_time_adjacent (g : List (Int × QEvent)) :
    find_hold_time g =
      if g.length ≤ 2 then 0 else unholdAdjacentSum (holdSubstitute g) := by
  by_cases h : g.length ≤ 2
  · rw [find_hold_time, if_pos (by omega), if_pos h]
  · rw [find_hold_time, if_neg (by omega), if_neg h,
      diffUnholdSum_eq_unholdAdjacentSum]

/-- C2 (code_bug evidence): in `test04.py`, on an input whose
reconstruction succeeds (call C: ENTERQUEUE@0, COMPLETEAGENT@5 — the
COMPLETEAGENT row keeps the hold frame non-empty), a failing
persistence batch is swallowed by `push_data_to_db` and the
unconditional `UPDATE … SET flag = 2 WHERE flag = 1` still runs: the
claimed row ends at flag 2 (DONE) while the destination received
nothing; the same run with persistence succeeding shows the batch was
non-empty.  By contrast, when the reconstruction itself raises (the
ABANDON-only input has no HOLD/UNHOLD/COMPLETE* row), the outer except
is taken and the row stays CLAIMED (flag 1). -/
theorem c2_watermark_done_despite_failure :
    ((connect_and_process04 (fun _ => true) c2db [] 0 10).1).map (fun r => r.flag) = [0, 2] ∧
    (connect_and_process04 (fun _ => true) c2db [] 0 10).2 = [] ∧
    ((connect_and_process04 (fun _ => false) c2db [] 0 10).2).map (fun r => r.callid) = ["C"] ∧
    ((connect_and_process04 (fun _ => true) c2dbNoHold [] 0 10).1).map (fun r => r.flag) =
      [0, 1] ∧
    (connect_and_process04 (fun _ => true) c2dbNoHold [] 0 10).2 = [] :=
  ⟨rfl, rfl, rfl, rfl, rfl⟩

/-- C4 (counterexample): for call `C3` (ENTERQUEUE@0, CONNECT@5,
HOLD@10, COMPLETEAGENT@40) the reconstructed record's hold_duration is
0, not 30: the filtered hold sequence has exactly 2 events, so the
≤ 2 guard returns 0 before the implicit-unhold substitution is ever
consulted. -/
theorem c4_scenario_hold_counterexample :
    ((record_of_calls c3log).map fun r => r.hold_duration) = [some 0] ∧
      ¬ ((record_of_calls c3log).map fun r => r.hold_duration) = [some 30] := by
  refine ⟨rfl, ?_⟩
  intro h
  rw [show ((record_of_calls c3log).map fun r => r.hold_duration) = [some 0] from rfl] at h
  simp at h

/-- C4 (amended): call `C3` reconstructs to exactly one record with
hold_duration = 0, because its filtered hold-relevant sequence
(HOLD@10, COMPLETEAGENT@40) has only 2 events and `find_hold_time`
returns 0 for any sequence of ≤ 2 events. -/
theorem c4_scenario_hold_zero :
    record_of_calls c3log = [c3rec] ∧ c3rec.hold_duration = some 0 ∧
      c3HoldSeq.length = 2 ∧ find_hold_time c3HoldSeq = 0 :=
  ⟨rfl, rfl, rfl, rfl⟩

/-- C5: for every call whose filtered HOLD/UNHOLD/completion sequence
has 2 or fewer events, the Hold-Time Analyzer returns exactly 0. -/
theorem c5_short_sequence_zero (g : List (Int × QEvent)) (h : g.length ≤ 2) :
    find_hold_time g = 0 := by
  rw [find_hold_time, if_pos (by omega)]

theorem c5_short_sequence_zero_witness :
    ([(0, QEvent.HOLD), (5, QEvent.UNHOLD)] : List (Int × QEvent)).length ≤ 2 ∧
      find_hold_time [(0, QEvent.HOLD), (5, QEvent.UNHOLD)] = 0 :=
  ⟨by decide, c5_short_sequence_zero _ (by decide)⟩

/-- C7: SessionRecord rows are write-once per callid: re-inserting a
record with an existing callid leaves the destination unchanged (first
writer wins, no overwrite, no duplicate), re-running the whole
persistence step is idempotent, and after the double insert exactly one
row holds that callid. -/
theorem c7_sink_write_once (dest : List Rec) (r r2 : Rec) (records : List Rec)
    (failing : Rec → Bool) (hsame : r2.callid = r.callid) :
    insertSkipConflict (insertSkipConflict dest r) r2 = insertSkipConflict dest r ∧
    push_data_to_db failing (push_data_to_db failing dest records) records =
      push_data_to_db failing dest records ∧
    (dest.countP (fun d => d.callid == r.callid) = 0 →
      (insertSkipConflict (insertSkipConflict dest r) r2).countP
        (fun d => d.callid == r.callid) = 1) := by
  have h1 : insertSkipConflict (insertSkipConflict dest r) r2 = insertSkipConflict dest r := by
    apply insertSkipConflict_of_present
    rw [hsame]
    exact any_key_insertSkipConflict_self dest r
  refine ⟨h1, ?_, ?_⟩
  · by_cases hf : records.any failing
    · simp [push_data_to_db, hf]
    · rw [push_data_to_db, if_neg hf, push_data_to_db, if_neg hf]
      exact foldl_insert_of_all_present records _
        (fun x hx => mem_key_foldl_insert records dest x hx)
  · intro h0
    rw [h1]
    have hnot : dest.any (fun y => y.callid == r.callid) = false := by
      cases hh : dest.any (fun y => y.callid == r.callid)
      · rfl
      · obtain ⟨y, hy, hyc⟩ := List.any_eq_true.mp hh
        have : 0 < dest.countP (fun d => d.callid == r.callid) :=
          List.countP_pos_iff.mpr ⟨y, hy, hyc⟩
        omega
    rw [insertSkipConflict, if_neg (by simp [hnot]), List.countP_append, h0]
    simp

/-- C9 (code_bug evidence): with two shards whose connections both
fail, `test01.py`'s `get_database_connection` returns a bare `None`,
the caller's `conn,dbname = …` unpacking raises a TypeError, and the
sequential `main` loop has no try/except — so the job aborts having
fully processed no shard: the second shard is never attempted, instead
of the failure being recorded against the first shard only. -/
theorem c9_shard_failure_not_isolated :
    main01 (fun _ _ => false) (fun _ => true)
        ["postgres:postgres@h1/db1", "postgres:postgres@h2/db2"] =
      ([], some "TypeError: cannot unpack non-iterable NoneType object") := rfl

theorem mem_enterFrame {log : List RawEvent} {x : Rec} (hx : x ∈ enterFrame log) :
    ∃ e, e ∈ log ∧ (e.event == QEvent.ENTERQUEUE) = true ∧ x.callid = e.callid := by
  simp only [enterFrame] at hx
  obtain ⟨e, he, rfl⟩ := List.mem_map.mp hx
  have hf := List.mem_filter.mp he
  exact ⟨e, hf.1, hf.2, rfl⟩

theorem mem_completeFrame {log : List RawEvent} {x : Rec} (hx : x ∈ completeFrame log) :
    ∃ e, e ∈ log ∧
      (e.event == QEvent.COMPLETEAGENT || e.event == QEvent.COMPLETECALLER) = true ∧
      x.callid = e.callid := by
  simp only [completeFrame] at hx
  obtain ⟨e, he, rfl⟩ := List.mem_map.mp hx
  have hf := List.mem_filter.mp he
  exact ⟨e, hf.1, hf.2, rfl⟩

theorem queuename_isSome_enterFrame {log : List RawEvent} {x : Rec}
    (hx : x ∈ enterFrame log) : x.queuename.isSome = true := by
  simp only [enterFrame] at hx
  obtain ⟨e, -, rfl⟩ := List.mem_map.mp hx
  rfl

theorem shape_abandonFrame {log : List RawEvent} {x : Rec} (hx : x ∈ abandonFrame log) :
    x.queuename = none ∧ x.agent_completed = none := by
  simp only [abandonFrame] at hx
  obtain ⟨k, -, rfl⟩ := List.mem_map.mp hx
  exact ⟨rfl, rfl⟩

theorem shape_connectFrame {log : List RawEvent} {x : Rec} (hx : x ∈ connectFrame log) :
    x.queuename = none ∧ x.agent_completed = none := by
  simp only [connectFrame] at hx
  obtain ⟨e, -, rfl⟩ := List.mem_map.mp hx
  exact ⟨rfl, rfl⟩

theorem shape_completeFrame {log : List RawEvent} {x : Rec} (hx : x ∈ completeFrame log) :
    x.queuename = none := by
  simp only [completeFrame] at hx
  obtain ⟨e, -, rfl⟩ := List.mem_map.mp hx
  rfl

theorem shape_holdFrame {log : List RawEvent} {x : Rec} (hx : x ∈ holdFrame log) :
    x.queuename = none ∧ x.agent_completed = none := by
  simp only [holdFrame] at hx
  obtain ⟨cid, -, rfl⟩ := List.mem_map.mp hx
  exact ⟨rfl, rfl⟩

theorem agent_completed_enterFrame {log : List RawEvent} {x : Rec}
    (hx : x ∈ enterFrame log) : x.agent_completed = none := by
  simp only [enterFrame] at hx
  obtain ⟨e, -, rfl⟩ := List.mem_map.mp hx
  rfl

/-- C3 (amended): the reconstructor variants that close with
`dropna(subset=["queuename"])` (`script_test.py`, `test01.py`,
`test02.py`, `test04.py`) emit no SessionRecord for a call_id whose
event group contains no ENTERQUEUE event; `test03.py`'s
`process_call_log` lacks that dropna and does emit such records (see
the counterexample). -/
theorem c3_enterqueue_required (log : List RawEvent) (c : String) (r : Rec)
    (h0 : log.countP (fun e => e.callid == c && e.event == QEvent.ENTERQUEUE) = 0)
    (hr : r ∈ record_of_calls log) : r.callid ≠ c := by
  have hEnter : ∀ x ∈ enterFrame log, x.callid = c → x.queuename = none := by
    intro x hx hxc
    obtain ⟨e, helog, hee, hcall⟩ := mem_enterFrame hx
    exfalso
    have hpos : 0 < log.countP (fun e => e.callid == c && e.event == QEvent.ENTERQUEUE) :=
      List.countP_pos_iff.mpr ⟨e, helog, by simp [hee, ← hcall, hxc]⟩
    omega
  have hM1 : ∀ x ∈ outerMergeBy combAbandon (enterFrame log) (abandonFrame log),
      x.callid = c → x.queuename = none :=
    outerMergeBy_forall (P := fun x => x.callid = c → x.queuename = none)
      (fun a b _ _ _ hPa _ hcal => hPa hcal)
      hEnter
      (fun x hx _ => (shape_abandonFrame hx).1)
  have hM2 : ∀ x ∈ outerMergeBy combConnect
      (outerMergeBy combAbandon (enterFrame log) (abandonFrame log)) (connectFrame log),
      x.callid = c → x.queuename = none :=
    outerMergeBy_forall (P := fun x => x.callid = c → x.queuename = none)
      (fun a b _ _ _ hPa _ hcal => hPa hcal)
      hM1
      (fun x hx _ => (shape_connectFrame hx).1)
  have hM3 : ∀ x ∈ outerMergeBy combComplete
      (outerMergeBy combConnect
        (outerMergeBy combAbandon (enterFrame log) (abandonFrame log)) (connectFrame log))
      (completeFrame log),
      x.callid = c → x.queuename = none :=
    outerMergeBy_forall (P := fun x => x.callid = c → x.queuename = none)
      (fun a b _ _ _ hPa _ hcal => hPa hcal)
      hM2
      (fun x hx _ => shape_completeFrame hx)
  have hM4 : ∀ x ∈ leftMergeBy combHold
      (outerMergeBy combComplete
        (outerMergeBy combConnect
          (outerMergeBy combAbandon (enterFrame log) (abandonFrame log)) (connectFrame log))
        (completeFrame log))
      (holdFrame log),
      x.callid = c → x.queuename = none :=
    leftMergeBy_forall (P := fun x => x.callid = c → x.queuename = none)
      (fun a b _ _ _ hPa hcal => hPa hcal)
      hM3
  intro hrc
  unfold record_of_calls at hr
  have hf := List.mem_filter.mp hr
  obtain ⟨y, hy, rfl⟩ := List.mem_map.mp hf.1
  have hynone : y.queuename = none := hM4 y hy hrc
  have := hf.2
  simp [finalizeRec, hynone] at this

theorem c3_enterqueue_required_witness : c3rec.callid ≠ "ZZZ" :=
  c3_enterqueue_required c3log "ZZZ" c3rec (by decide) (by decide)

/-- C3 (counterexample): `test03.py`'s `process_call_log` does emit a
record for a call whose group has no ENTERQUEUE event — a lone ABANDON
row for call `X` survives the outer merges because the variant has no
`dropna(subset=["queuename"])` step. -/
theorem c3_no_enterqueue_counterexample :
    (process_call_log abandonOnlyLog).map (fun r => r.callid) = ["X"] ∧
      abandonOnlyLog.countP (fun e => e.event == QEvent.ENTERQUEUE) = 0 :=
  ⟨rfl, rfl⟩

/-- C10: when a call group has an ENTERQUEUE event but no COMPLETEAGENT
or COMPLETECALLER event, the emitted record's agent_completed field is
null (`none`), not `false`: it is assigned only from completion-event
rows and is never given a default. -/
theorem c10_agent_completed_null (log : List RawEvent) (c : String) (r : Rec)
    (hno : log.countP (fun e => e.callid == c &&
      (e.event == QEvent.COMPLETEAGENT || e.event == QEvent.COMPLETECALLER)) = 0)
    (hr : r ∈ record_of_calls log) (hc : r.callid = c) : r.agent_completed = none := by
  have hComp : ∀ x ∈ completeFrame log, x.callid = c → x.agent_completed = none := by
    intro x hx hxc
    obtain ⟨e, helog, hee, hcall⟩ := mem_completeFrame hx
    exfalso
    have hpos : 0 < log.countP (fun e => e.callid == c &&
        (e.event == QEvent.COMPLETEAGENT || e.event == QEvent.COMPLETECALLER)) :=
      List.countP_pos_iff.mpr ⟨e, helog, by simp [hee, ← hcall, hxc]⟩
    omega
  have hM1 : ∀ x ∈ outerMergeBy combAbandon (enterFrame log) (abandonFrame log),
      x.callid = c → x.agent_completed = none :=
    outerMergeBy_forall (P := fun x => x.callid = c → x.agent_completed = none)
      (fun a b _ _ _ hPa _ hcal => hPa hcal)
      (fun x hx _ => agent_completed_enterFrame hx)
      (fun x hx _ => (shape_abandonFrame hx).2)
  have hM2 : ∀ x ∈ outerMergeBy combConnect
      (outerMergeBy combAbandon (enterFrame log) (abandonFrame log)) (connectFrame log),
      x.callid = c → x.agent_completed = none :=
    outerMergeBy_forall (P := fun x => x.callid = c → x.agent_completed = none)
      (fun a b _ _ _ hPa _ hcal => hPa hcal)
      hM1
      (fun x hx _ => (shape_connectFrame hx).2)
  have hM3 : ∀ x ∈ outerMergeBy combComplete
      (outerMergeBy combConnect
        (outerMergeBy combAbandon (enterFrame log) (abandonFrame log)) (connectFrame log))
      (completeFrame log),
      x.callid = c → x.agent_completed = none :=
    outerMergeBy_forall (P := fun x => x.callid = c → x.agent_completed = none)
      (fun a b _ hbR hbeq hPa hPb hcal => by
        show b.agent_completed = none
        apply hPb
        have hba : b.callid = a.callid := by simpa using hbeq
        rw [hba]
        exact hcal)
      hM2
      hComp
  have hM4 : ∀ x ∈ leftMergeBy combHold
      (outerMergeBy combComplete
        (outerMergeBy combConnect
          (outerMergeBy combAbandon (enterFrame log) (abandonFrame log)) (connectFrame log))
        (completeFrame log))
      (holdFrame log),
      x.callid = c → x.agent_completed = none :=
    leftMergeBy_forall (P := fun x => x.callid = c → x.agent_completed = none)
      (fun a b _ _ _ hPa hcal => hPa hcal)
      hM3
  unfold record_of_calls at hr
  have hf := List.mem_filter.mp hr
  obtain ⟨y, hy, rfl⟩ := List.mem_map.mp hf.1
  exact hM4 y hy hc

theorem c10_agent_completed_null_witness :
    abandonedRec ∈ record_of_calls abandonedCallLog ∧ abandonedRec.agent_completed = none :=
  ⟨by decide,
   c10_agent_completed_null abandonedCallLog "N" abandonedRec (by decide) (by decide) rfl⟩

/-- C6 (counterexample): a call group with two CONNECT events yields
TWO records for one call_id — the key-based merge produces the cross
product, so "exactly one SessionRecord per surviving call_id, first
event wins on duplicates" is false. -/
theorem c6_duplicate_connect_counterexample :
    (record_of_calls dupConnectLog).countP (fun r => r.callid == "D") = 2 ∧
      ((record_of_calls dupConnectLog).map fun r => (r.callid, r.agent)) =
        [("D", some "A1"), ("D", some "A2")] :=
  ⟨rfl, rfl⟩

/-- Core counting fact behind the uniqueness correction: on the shared
success path of the merge chain, a call with exactly one ENTERQUEUE
row, at most one CONNECT row, at most one COMPLETE* row and a single
ABANDON/EXITEMPTY pivot key yields exactly one output record. -/
theorem record_of_calls_countP_eq_one (log : List RawEvent) (c : String)
    (h1 : log.countP (fun e => e.callid == c && e.event == QEvent.ENTERQUEUE) = 1)
    (h2 : log.countP (fun e => e.callid == c && e.event == QEvent.CONNECT) ≤ 1)
    (h3 : log.countP (fun e => e.callid == c &&
      (e.event == QEvent.COMPLETEAGENT || e.event == QEvent.COMPLETECALLER)) ≤ 1)
    (h4 : ∀ e1, e1 ∈ log → ∀ e2, e2 ∈ log →
      (e1.event == QEvent.ABANDON || e1.event == QEvent.EXITEMPTY) = true →
      (e2.event == QEvent.ABANDON || e2.event == QEvent.EXITEMPTY) = true →
      e1.callid = c → e2.callid = c → e1.data3 = e2.data3) :
    (record_of_calls log).countP (fun r => r.callid == c) = 1 := by
  have hE : (enterFrame log).countP (fun r => r.callid == c) = 1 := by
    rw [countP_enterFrame]; exact h1
  have hA : (abandonFrame log).countP (fun r => r.callid == c) ≤ 1 :=
    countP_abandonFrame_le_one_of_unique log c h4
  have hM1 := countP_outerMergeBy_eq_one combAbandon (fun a b => rfl) hE hA
  have hC : (connectFrame log).countP (fun r => r.callid == c) ≤ 1 := by
    rw [countP_connectFrame]; exact h2
  have hM2 := countP_outerMergeBy_eq_one combConnect (fun a b => rfl) hM1 hC
  have hCo : (completeFrame log).countP (fun r => r.callid == c) ≤ 1 := by
    rw [countP_completeFrame]; exact h3
  have hM3 := countP_outerMergeBy_eq_one combComplete (fun a b => rfl) hM2 hCo
  have hH := countP_holdFrame_le_one log c
  have hM4 := countP_leftMergeBy_eq_one combHold (fun a b => rfl) hM3 hH
  have hkey : ∀ r : Rec, r.callid ≠ c → (r.callid = c → r.queuename.isSome = true) :=
    fun r hne hc => absurd hc hne
  have hexOf : ∀ (l : List Rec), l.countP (fun r => r.callid == c) = 1 →
      ∃ a, a ∈ l ∧ a.callid = c := by
    intro l hl
    have hpos : 0 < l.countP (fun r => r.callid == c) := by omega
    obtain ⟨a, ha, hac⟩ := List.countP_pos_iff.mp hpos
    exact ⟨a, ha, by simpa using hac⟩
  have hQ1 : ∀ x ∈ outerMergeBy combAbandon (enterFrame log) (abandonFrame log),
      x.callid = c → x.queuename.isSome = true :=
    outerMergeBy_forall_keyed (P := fun x => x.callid = c → x.queuename.isSome = true)
      hkey (hexOf _ hE)
      (fun a b _ _ _ hPa hcal => hPa hcal)
      (fun x hx _ => queuename_isSome_enterFrame hx)
  have hQ2 : ∀ x ∈ outerMergeBy combConnect
      (outerMergeBy combAbandon (enterFrame log) (abandonFrame log)) (connectFrame log),
      x.callid = c → x.queuename.isSome = true :=
    outerMergeBy_forall_keyed (P := fun x => x.callid = c → x.queuename.isSome = true)
      hkey (hexOf _ hM1)
      (fun a b _ _ _ hPa hcal => hPa hcal)
      hQ1
  have hQ3 : ∀ x ∈ outerMergeBy combComplete
      (outerMergeBy combConnect
        (outerMergeBy combAbandon (enterFrame log) (abandonFrame log)) (connectFrame log))
      (completeFrame log),
      x.callid = c → x.queuename.isSome = true :=
    outerMergeBy_forall_keyed (P := fun x => x.callid = c → x.queuename.isSome = true)
      hkey (hexOf _ hM2)
      (fun a b _ _ _ hPa hcal => hPa hcal)
      hQ2
  have hQ4 : ∀ x ∈ leftMergeBy combHold
      (outerMergeBy combComplete
        (outerMergeBy combConnect
          (outerMergeBy combAbandon (enterFrame log) (abandonFrame log)) (connectFrame log))
        (completeFrame log))
      (holdFrame log),
      x.callid = c → x.queuename.isSome = true :=
    leftMergeBy_forall (P := fun x => x.callid = c → x.queuename.isSome = true)
      (fun a b _ _ _ hPa hcal => hPa hcal)
      hQ3
  unfold record_of_calls
  rw [countP_filter_of_imp]
  · rw [List.countP_map]
    refine Eq.trans (List.countP_congr ?_) hM4
    intro x _
    simp [Function.comp, finalizeRec]
  · intro r hrm hrc
    obtain ⟨y, hy, rfl⟩ := List.mem_map.mp hrm
    have hyc : y.callid = c := by simpa [finalizeRec] using hrc
    have := hQ4 y hy hyc
    simpa [finalizeRec] using this

/-- C6 (amended): whenever the Session Reconstructor emits at all —
`script_test.py`/`test01.py`/`test02.py` raise (and emit nothing) when
the fetched log lacks an ABANDON row, an EXITEMPTY row, or any
HOLD/UNHOLD/COMPLETE* row, and `test04.py` raises on the last
condition — it emits exactly one record per call_id that has an
ENTERQUEUE event, provided ENTERQUEUE, CONNECT and COMPLETE* each
occur at most once for that call and all its ABANDON/EXITEMPTY rows
share one (callid, data3) pivot key.  Duplicates of the merged kinds
multiply output rows (cross product) instead of letting the first
event win; only the ABANDON/EXITEMPTY pivot (aggfunc='first') takes a
first value. -/
theorem c6_one_record_per_call (log : List RawEvent) (c : String)
    (h1 : log.countP (fun e => e.callid == c && e.event == QEvent.ENTERQUEUE) = 1)
    (h2 : log.countP (fun e => e.callid == c && e.event == QEvent.CONNECT) ≤ 1)
    (h3 : log.countP (fun e => e.callid == c &&
      (e.event == QEvent.COMPLETEAGENT || e.event == QEvent.COMPLETECALLER)) ≤ 1)
    (h4 : ∀ e1, e1 ∈ log → ∀ e2, e2 ∈ log →
      (e1.event == QEvent.ABANDON || e1.event == QEvent.EXITEMPTY) = true →
      (e2.event == QEvent.ABANDON || e2.event == QEvent.EXITEMPTY) = true →
      e1.callid = c → e2.callid = c → e1.data3 = e2.data3) :
    (∀ out, record_of_calls_strict log = some out →
      out.countP (fun r => r.callid == c) = 1) ∧
    (∀ out, record_of_calls04 log = some out →
      out.countP (fun r => r.callid == c) = 1) := by
  have hcore := record_of_calls_countP_eq_one log c h1 h2 h3 h4
  constructor
  · intro out hout
    unfold record_of_calls_strict at hout
    split at hout
    · simp at hout
    · have heq : record_of_calls log = out := by simpa using hout
      rw [← heq]
      exact hcore
  · intro out hout
    unfold record_of_calls04 at hout
    split at hout
    · simp at hout
    · have heq : record_of_calls log = out := by simpa using hout
      rw [← heq]
      exact hcore

theorem c6_one_record_per_call_witness :
    record_of_calls_strict c6log = some (record_of_calls c6log) ∧
    record_of_calls04 c6log = some (record_of_calls c6log) ∧
    (record_of_calls c6log).countP (fun r => r.callid == "C3") = 1 := by
  have h := c6_one_record_per_call c6log "C3" (by decide) (by decide) (by decide) (by decide)
  exact ⟨rfl, rfl, h.1 (record_of_calls c6log) rfl⟩

/-- C7 witness record. -/
def w7r : Rec := { callid := "W" }

/-- C7 witness record with the same callid and different payload. -/
def w7r2 : Rec := { callid := "W", queuename := some "other" }

theorem c7_sink_write_once_witness :
    insertSkipConflict (insertSkipConflict [] w7r) w7r2 = insertSkipConflict [] w7r ∧
    push_data_to_db (fun _ => false) (push_data_to_db (fun _ => false) [] [w7r]) [w7r] =
      push_data_to_db (fun _ => false) [] [w7r] ∧
    (insertSkipConflict (insertSkipConflict [] w7r) w7r2).countP
      (fun d => d.callid == w7r.callid) = 1 := by
  have h := c7_sink_write_once [] w7r w7r2 [w7r] (fun _ => false) rfl
  exact ⟨h.1, h.2.1, h.2.2 (by decide)⟩

/-- C8: a descriptor the pattern does not match fails immediately —
no connection attempt, no sleep; a matching descriptor whose
connections all fail is retried exactly `retries` times with sleeps
2^0, 2^1, … between attempts before failing; a connection that first
succeeds at attempt `k < retries` stops the loop after `k + 1`
attempts, having slept 2^0 … 2^(k−1). -/
theorem c8_shard_connector (url : String) (oracle : Nat → Bool) (retries k : Nat) :
    (reSearch url.toList = none →
      get_database_connection url oracle retries = (none, ⟨0, []⟩)) ∧
    (reSearch url.toList ≠ none → (∀ j, j < retries → oracle j = false) →
      get_database_connection url oracle retries =
        (none, ⟨retries, (List.range retries).map fun j => 2 ^ j⟩)) ∧
    (reSearch url.toList ≠ none → oracle k = true → (∀ j, j < k → oracle j = false) →
      k < retries →
      (get_database_connection url oracle retries).1.isSome = true ∧
      (get_database_connection url oracle retries).2 =
        ⟨k + 1, (List.range k).map fun j => 2 ^ j⟩) := by
  refine ⟨?_, ?_, ?_⟩
  · intro h
    unfold get_database_connection
    rw [h]
  · intro hne hfail
    unfold get_database_connection
    cases hs : reSearch url.toList with
    | none => exact absurd hs hne
    | some hd =>
        obtain ⟨host, db⟩ := hd
        rw [connectLoop_all_fail oracle retries 0 (fun j hj => by simpa using hfail j hj)]
        simp
  · intro hne hk hfail hkr
    unfold get_database_connection
    cases hs : reSearch url.toList with
    | none => exact absurd hs hne
    | some hd =>
        obtain ⟨host, db⟩ := hd
        rw [connectLoop_first_success oracle k 0 retries (by simpa using hk)
          (fun j hj => by simpa using hfail j hj) hkr]
        simp

theorem c8_shard_connector_witness :
    get_database_connection "not-a-db-url" (fun _ => false) 3 = (none, ⟨0, []⟩) ∧
    get_database_connection "postgres:postgres@h/db" (fun _ => false) 3 =
      (none, ⟨3, [1, 2, 4]⟩) ∧
    (get_database_connection "postgres:postgres@h/db" (fun j => j == 1) 3).2 = ⟨2, [1]⟩ := by
  refine ⟨?_, ?_, ?_⟩
  · exact (c8_shard_connector "not-a-db-url" (fun _ => false) 3 0).1 (by decide)
  · have h := (c8_shard_connector "postgres:postgres@h/db" (fun _ => false) 3 0).2.1
      (by decide) (fun j _ => rfl)
    rw [h]
    rfl
  · have h := ((c8_shard_connector "postgres:postgres@h/db" (fun j => j == 1) 3 1).2.2
      (by decide) (by decide) (by decide) (by decide)).2
    rw [h]
    rfl
